import Mathlib

/-!
# Verification of the sec-mcp inline-XBRL parser and dimensional fact matcher

Shallow embedding of `src/xbrl-parser.js` (the Annotation Extractor, Context
Resolver and Fact Matcher of the spec).  JavaScript strings are modelled as
`List Char` / `String`, JavaScript numbers as `ℚ` with an explicit `nan`
marker (`JValue`), and the `RegExp`-based scanning of the source is modelled
by a small backtracking regex engine (`Re`, `mtch`, `scanAll`) whose
semantics — greedy / lazy quantifiers tried in JavaScript's backtracking
order, optional groups left unset when skipped — mirror the ECMAScript
`RegExp.exec` behaviour for the operators the source uses.
-/

namespace SecMcp

/-! ## JavaScript string and number primitives -/

/-- Whitespace recognised by JavaScript `parseFloat` / `parseInt` / `trim`
(restricted to the ASCII whitespace characters; exotic Unicode space
code points are not modelled). -/
def jsIsSpace (c : Char) : Bool :=
  c = ' ' || c = '\t' || c = '\n' || c = '\r' || c = '\x0b' || c = '\x0c'

/-- Numeric value of a digit string, most significant digit first. -/
def digitsVal (l : List Char) : Nat :=
  l.foldl (fun a c => 10 * a + (c.toNat - 48)) 0

/-- Exponent tail of a decimal literal: optional sign then digits.
If no digits follow, the exponent marker is not part of the literal and
contributes a factor of one (JavaScript `parseFloat ("1e")` = 1). -/
def expTail (t : List Char) : Int :=
  let p : Int × List Char :=
    match t with
    | '-' :: r => (-1, r)
    | '+' :: r => (1, r)
    | r => (1, r)
  let ds := p.2.takeWhile Char.isDigit
  if ds = [] then 0 else p.1 * (digitsVal ds : Int)

/-- Exponent part: `e`/`E` followed by an optionally signed digit string. -/
def expVal (s : List Char) : Int :=
  match s with
  | 'e' :: t => expTail t
  | 'E' :: t => expTail t
  | _ => 0

/-- `10 ^ k` on `Nat`, by structural recursion. -/
def tenPow : Nat → Nat
  | 0 => 1
  | k + 1 => 10 * tenPow k

/-- A (finite) JavaScript number, modelled as the exact decimal
`m · 10^e`.  The representation is kept canonical — `m` not divisible by
ten unless the number is zero, which is `⟨0, 0⟩` — so that structural
equality of `Dec` values is numeric equality.  Every number this program
manipulates is such a decimal (a parsed decimal literal times integer
powers of ten); IEEE-754 double rounding is not modelled, the values are
kept exact. -/
structure Dec where
  m : Int
  e : Int
deriving DecidableEq

/-- Strip factors of ten from the mantissa (fuel-bounded). -/
def canonAux : Nat → Int → Int → Dec
  | 0, m, e => ⟨m, e⟩
  | fuel + 1, m, e =>
      if m = 0 then ⟨0, 0⟩
      else if m % 10 = 0 then canonAux fuel (m / 10) (e + 1) else ⟨m, e⟩

/-- Canonical decimal with value `m · 10^e`. -/
def Dec.canon (m e : Int) : Dec := canonAux m.natAbs m e

/-- The decimal value of an integer. -/
def Dec.ofInt (n : Int) : Dec := Dec.canon n 0

/-- Multiplication by `10^k` (exact; JavaScript's
`x * Math.pow(10, k)`). -/
def Dec.mulPow10 (d : Dec) (k : Int) : Dec := Dec.canon d.m (d.e + k)

/-- Numeric order on decimals, by aligning exponents. -/
def Dec.le (a b : Dec) : Bool :=
  if a.e ≤ b.e then a.m ≤ b.m * (tenPow (b.e - a.e).toNat : Int)
  else a.m * (tenPow (a.e - b.e).toNat : Int) ≤ b.m

/-- Model of JavaScript `parseFloat`: skip leading whitespace, optional
sign, then the longest prefix of the form `digits [. digits] [exp]` or
`. digits [exp]`; `none` models the `NaN` result when no digits are
found.  (The `Infinity` literal is not modelled.) -/
def jsParseFloat (s : List Char) : Option Dec :=
  let s1 := s.dropWhile jsIsSpace
  let p : Int × List Char :=
    match s1 with
    | '-' :: t => (-1, t)
    | '+' :: t => (1, t)
    | t => (1, t)
  let ipart := p.2.takeWhile Char.isDigit
  let rest1 := p.2.dropWhile Char.isDigit
  let q : List Char × List Char :=
    match rest1 with
    | '.' :: t => (t.takeWhile Char.isDigit, t.dropWhile Char.isDigit)
    | t => ([], t)
  if ipart = [] ∧ q.1 = [] then none
  else
    some (Dec.canon
      (p.1 * ((digitsVal ipart * tenPow q.1.length + digitsVal q.1 : Nat) : Int))
      (expVal q.2 - q.1.length))

/-- Model of JavaScript `parseInt` with no radix argument: skip leading
whitespace, optional sign, then hexadecimal digits after a `0x`/`0X`
prefix or decimal digits otherwise; `none` models `NaN` (no digits). -/
def jsParseInt (s : List Char) : Option Int :=
  let s1 := s.dropWhile jsIsSpace
  let p : Int × List Char :=
    match s1 with
    | '-' :: t => (-1, t)
    | '+' :: t => (1, t)
    | t => (1, t)
  match p.2 with
  | '0' :: 'x' :: t =>
      let ds := t.takeWhile (fun c => c.isDigit || ('a' ≤ c && c ≤ 'f') || ('A' ≤ c && c ≤ 'F'))
      if ds = [] then none
      else some (p.1 * (ds.foldl (fun a c =>
        16 * a + (if c.isDigit then c.toNat - 48
                  else if 'a' ≤ c then c.toNat - 87 else c.toNat - 55)) 0 : Nat))
  | '0' :: 'X' :: t =>
      let ds := t.takeWhile (fun c => c.isDigit || ('a' ≤ c && c ≤ 'f') || ('A' ≤ c && c ≤ 'F'))
      if ds = [] then none
      else some (p.1 * (ds.foldl (fun a c =>
        16 * a + (if c.isDigit then c.toNat - 48
                  else if 'a' ≤ c then c.toNat - 87 else c.toNat - 55)) 0 : Nat))
  | t =>
      let ds := t.takeWhile Char.isDigit
      if ds = [] then none else some (p.1 * (digitsVal ds : Int))

/-- JavaScript `String.prototype.toLowerCase`, restricted to the ASCII
case mapping of `Char.toLower`. -/
def lowerL (s : String) : List Char := s.data.map Char.toLower

/-- JavaScript `String.prototype.trim` (ASCII whitespace). -/
def jsTrim (s : String) : String :=
  (((s.data.dropWhile jsIsSpace).reverse.dropWhile jsIsSpace).reverse).asString

/-- Does `hay` start with `needle`? -/
def startsWithL : List Char → List Char → Bool
  | _, [] => true
  | [], _ :: _ => false
  | d :: s, c :: p => d = c && startsWithL s p

/-- JavaScript `hay.includes(needle)`: contiguous-substring test. -/
def containsL (hay needle : List Char) : Bool :=
  match hay with
  | [] => startsWithL [] needle
  | _ :: t => startsWithL hay needle || containsL t needle

/-! ## JavaScript values -/

/-- A JavaScript value as stored in a fact's `value` field: a (finite)
number, the `NaN` number, or a string. -/
inductive JValue where
  | num (d : Dec)
  | nan
  | str (s : String)
deriving DecidableEq

/-- JavaScript truthiness of a `JValue`: `0`, `NaN` and `""` are falsy. -/
def jsTruthy : JValue → Bool
  | .num d => d.m ≠ 0
  | .nan => false
  | .str s => s ≠ ""

/-- Decimal digit characters of a natural number. -/
def natDigits (n : Nat) : List Char := Nat.toDigits 10 n

/-- Model of JavaScript `Number.prototype.toString` on the decimal
embedding: sign, integer digits and (for a negative exponent) a point
with the remaining mantissa digits, exact for the decimal values the
parser produces; the exponential notation JavaScript switches to for
very large or very small magnitudes is not modelled. -/
def jsNumToString (d : Dec) : String :=
  let sign := if d.m < 0 then "-" else ""
  let n := d.m.natAbs
  if 0 ≤ d.e then
    sign ++ (natDigits n).asString ++ (List.replicate d.e.toNat '0').asString
  else
    let k := (-d.e).toNat
    let ip := n / tenPow k
    let fp := n % tenPow k
    let fd := natDigits fp
    sign ++ (natDigits ip).asString ++ "." ++
      (List.replicate (k - fd.length) '0').asString ++ fd.asString

/-- JavaScript `.toString()` of a fact or criteria value. -/
def jsToString : JValue → String
  | .num q => jsNumToString q
  | .nan => "NaN"
  | .str s => s

/-! ## A backtracking regex engine for the source's patterns

The source scans HTML with JavaScript `RegExp`s built from literals,
greedy `[^c]*` (plain or capturing), optional non-capturing groups
`(?:…)?`, and one lazy dot-all capture `(.*?)`.  `Re` is exactly that
fragment and `mtch` implements the ECMAScript backtracking order:
greedy pieces try the longest match first, lazy pieces the shortest,
an optional group first tries its body and only then the empty match,
and the first overall success wins. -/

inductive Re where
  | eps : Re
  | lit : String → Re
  | starNot : Char → Re
  | group : Nat → Char → Re
  | lazyGroup : Nat → Re
  | opt : Re → Re
  | seq : Re → Re → Re

/-- Capture list: group index paired with captured characters.  A lookup
finds the most recent assignment; groups never captured are absent
(JavaScript `undefined`). -/
def Caps := List (Nat × List Char)

/-- Captured text of group `i`, if the group participated in the match. -/
def getCap (i : Nat) (caps : Caps) : Option (List Char) :=
  (List.find? (fun p => p.1 = i) caps).map (fun p => p.2)

/-- Match a literal at the head of the input, case-insensitively when
`ci` is set (the `i` flag), returning the remaining input. -/
def stripLit (ci : Bool) : List Char → List Char → Option (List Char)
  | [], s => some s
  | _ :: _, [] => none
  | c :: p, d :: s =>
      if (if ci then c.toLower = d.toLower else c = d) then stripLit ci p s else none

/-- Try `f n`, `f (n-1)`, …, `f 0`, returning the first `some`. -/
def firstSomeDown (f : Nat → Option α) : Nat → Option α
  | 0 => f 0
  | n + 1 => (f (n + 1)).orElse fun _ => firstSomeDown f n

/-- Try `f 0`, `f 1`, …, `f n`, returning the first `some`. -/
def firstSomeUp (f : Nat → Option α) (n : Nat) : Option α :=
  firstSomeDown (fun k => f (n - k)) n

/-- CPS backtracking matcher: match `r` at the head of `s`, extending
`caps`, and call the continuation `k` on the remaining input; the first
success in JavaScript's backtracking order is returned. -/
def mtch (ci : Bool) : Re → List Char → Caps → (List Char → Caps → Option α) → Option α
  | .eps, s, caps, k => k s caps
  | .lit l, s, caps, k =>
      match stripLit ci l.data s with
      | some s2 => k s2 caps
      | none => none
  | .starNot c, s, caps, k =>
      firstSomeDown (fun j => k (s.drop j) caps) (s.takeWhile (fun d => d ≠ c)).length
  | .group i c, s, caps, k =>
      firstSomeDown (fun j => k (s.drop j) ((i, s.take j) :: caps))
        (s.takeWhile (fun d => d ≠ c)).length
  | .lazyGroup i, s, caps, k =>
      firstSomeUp (fun j => k (s.drop j) ((i, s.take j) :: caps)) s.length
  | .opt r, s, caps, k => (mtch ci r s caps k).orElse fun _ => k s caps
  | .seq a b, s, caps, k => mtch ci a s caps fun s2 caps2 => mtch ci b s2 caps2 k

/-- Anchored match at the head of `s`: remaining input and captures of
the first success. -/
def matchHere (ci : Bool) (r : Re) (s : List Char) : Option (List Char × Caps) :=
  mtch ci r s [] fun rest caps => some (rest, caps)

/-- All successive matches of `r` in `s`, as `RegExp.exec` with the `g`
flag enumerates them: search forward for the next match, then continue
from its end (advancing one character on an empty match).  `fuel` bounds
the number of scan steps; `s.length + 1` is always enough. -/
def scanAll (ci : Bool) (r : Re) : Nat → List Char → List Caps
  | 0, _ => []
  | fuel + 1, s =>
      match matchHere ci r s with
      | some (rest, caps) =>
          if rest.length < s.length then caps :: scanAll ci r fuel rest
          else
            match s with
            | [] => [caps]
            | _ :: t => caps :: scanAll ci r fuel t
      | none =>
          match s with
          | [] => []
          | _ :: t => scanAll ci r fuel t

/-- First match of `r` in `s` (JavaScript `String.prototype.match`
without the `g` flag), returning its captures. -/
def firstMatch (ci : Bool) (r : Re) : List Char → Option Caps
  | [] => (matchHere ci r []).map fun p => p.2
  | s@(_ :: t) =>
      match matchHere ci r s with
      | some (_, caps) => some caps
      | none => firstMatch ci r t

/-- Sequence a list of regex pieces. -/
def reSeq : List Re → Re
  | [] => .eps
  | [r] => r
  | r :: rs => .seq r (reSeq rs)

/-! ## The source's patterns

Each definition below transcribes one `RegExp` literal of
`src/xbrl-parser.js`; capture-group numbers follow the JavaScript
left-to-right numbering. -/

/-- `/<ix:nonFraction[^>]*name="([^"]*)"[^>]*contextRef="([^"]*)"[^>]*(?:unitRef="([^"]*)")?[^>]*(?:decimals="([^"]*)")?[^>]*(?:scale="([^"]*)")?[^>]*>([^<]*)<\/ix:nonFraction>/gi` -/
def nonFractionRe : Re := reSeq
  [ .lit ("<ix:nonFraction"), .starNot '>',
    .lit ("name=\""), .group 1 '"', .lit ("\""), .starNot '>',
    .lit ("contextRef=\""), .group 2 '"', .lit ("\""), .starNot '>',
    .opt (reSeq [.lit ("unitRef=\""), .group 3 '"', .lit ("\"")]), .starNot '>',
    .opt (reSeq [.lit ("decimals=\""), .group 4 '"', .lit ("\"")]), .starNot '>',
    .opt (reSeq [.lit ("scale=\""), .group 5 '"', .lit ("\"")]), .starNot '>',
    .lit (">"), .group 6 '<', .lit ("</ix:nonFraction>") ]

/-- `/<ix:fraction[^>]*name="([^"]*)"[^>]*contextRef="([^"]*)"[^>]*>([^<]*)<\/ix:fraction>/gi` -/
def fractionRe : Re := reSeq
  [ .lit ("<ix:fraction"), .starNot '>',
    .lit ("name=\""), .group 1 '"', .lit ("\""), .starNot '>',
    .lit ("contextRef=\""), .group 2 '"', .lit ("\""), .starNot '>',
    .lit (">"), .group 3 '<', .lit ("</ix:fraction>") ]

/-- `/<ix:nonNumeric[^>]*name="([^"]*)"[^>]*contextRef="([^"]*)"[^>]*>([^<]*)<\/ix:nonNumeric>/gi` -/
def nonNumericRe : Re := reSeq
  [ .lit ("<ix:nonNumeric"), .starNot '>',
    .lit ("name=\""), .group 1 '"', .lit ("\""), .starNot '>',
    .lit ("contextRef=\""), .group 2 '"', .lit ("\""), .starNot '>',
    .lit (">"), .group 3 '<', .lit ("</ix:nonNumeric>") ]

/-- `/<ix:context[^>]*id="([^"]*)"[^>]*>(.*?)<\/ix:context>/gs` -/
def ixContextRe : Re := reSeq
  [ .lit ("<ix:context"), .starNot '>', .lit ("id=\""), .group 1 '"', .lit ("\""),
    .starNot '>', .lit (">"), .lazyGroup 2, .lit ("</ix:context>") ]

/-- `/<xbrli:context[^>]*id="([^"]*)"[^>]*>(.*?)<\/xbrli:context>/gs` -/
def xbrliContextRe : Re := reSeq
  [ .lit ("<xbrli:context"), .starNot '>', .lit ("id=\""), .group 1 '"', .lit ("\""),
    .starNot '>', .lit (">"), .lazyGroup 2, .lit ("</xbrli:context>") ]

/-- `/<xbrli:instant>([^<]*)<\/xbrli:instant>/` -/
def instantRe : Re := reSeq [.lit ("<xbrli:instant>"), .group 1 '<', .lit ("</xbrli:instant>")]

/-- `/<xbrli:startDate>([^<]*)<\/xbrli:startDate>/` -/
def startDateRe : Re := reSeq [.lit ("<xbrli:startDate>"), .group 1 '<', .lit ("</xbrli:startDate>")]

/-- `/<xbrli:endDate>([^<]*)<\/xbrli:endDate>/` -/
def endDateRe : Re := reSeq [.lit ("<xbrli:endDate>"), .group 1 '<', .lit ("</xbrli:endDate>")]

/-- `/<xbrli:identifier[^>]*>([^<]*)<\/xbrli:identifier>/` -/
def identifierRe : Re := reSeq
  [.lit ("<xbrli:identifier"), .starNot '>', .lit (">"), .group 1 '<', .lit ("</xbrli:identifier>")]

/-- `/<xbrldi:explicitMember[^>]*dimension="([^"]*)"[^>]*>([^<]*)<\/xbrldi:explicitMember>/g` -/
def memberRe : Re := reSeq
  [ .lit ("<xbrldi:explicitMember"), .starNot '>',
    .lit ("dimension=\""), .group 1 '"', .lit ("\""), .starNot '>',
    .lit (">"), .group 2 '<', .lit ("</xbrldi:explicitMember>") ]

/-! ## Data model -/

/-- A fact annotation as built by `extractFactsFromIxbrl`.  The source's
`namespace` field is spelled `namespc` (Lean keyword); fields a given
fact kind leaves undefined are `none`. -/
structure Fact where
  namespc : String
  concept : String
  value : JValue
  valueRaw : String
  contextRef : String
  unitRef : Option String
  decimals : Option String
  scale : Option String
  fullTag : String
  factType : String
deriving DecidableEq

/-- The period object of a context: `{type:'instant', instant}`,
`{type:'duration', startDate, endDate}` or `{type:'unknown'}` (no date
fields present). -/
inductive Period where
  | instant (date : String)
  | duration (startDate endDate : String)
  | unknown
deriving DecidableEq

/-- The entity object of a context. -/
structure Entity where
  identifier : Option String
deriving DecidableEq

/-- A context record.  `dimensions` models the JavaScript object
`{axis: member}`: insertion-ordered association list with unique keys. -/
structure Ctx where
  id : String
  period : Period
  entity : Entity
  dimensions : List (String × String)
deriving DecidableEq

/-- JavaScript object property read `m[k]`: value of the (unique)
binding of `k`, or `undefined`. -/
def jsGet : List (String × α) → String → Option α
  | [], _ => none
  | p :: t, k => if p.1 = k then some p.2 else jsGet t k

/-- JavaScript object property write `m[k] = v`: replace the binding in
place when the key exists, append it otherwise. -/
def updX : List (String × α) → String → α → List (String × α)
  | [], k, v => [(k, v)]
  | p :: t, k, v => if p.1 = k then (k, v) :: t else p :: updX t k v

/-! ## `parseXbrlName` and `parseNumericValue` -/

/-- JavaScript `String.prototype.split` with a one-character separator. -/
def jsSplit (sep : Char) : List Char → List (List Char)
  | [] => [[]]
  | c :: cs =>
      let r := jsSplit sep cs
      if c = sep then [] :: r
      else
        match r with
        | [] => [[c]]
        | h :: t => (c :: h) :: t

/-- `parseXbrlName`: split on `:`; exactly two parts give
`[namespace, localName]`, anything else gives `['default', name]`. -/
def parseXbrlName (name : String) : String × String :=
  match jsSplit ':' name.data with
  | [a, b] => (a.asString, b.asString)
  | _ => ("default", name)

/-- `parseNumericValue(value, scale)`:
`parseFloat(value.replace(/,/g, '')) || 0`, then
`* Math.pow(10, parseInt(scale))` when `scale` is truthy.  An absent or
empty scale leaves the value unscaled; a non-empty unparsable scale
makes the result `NaN` (`Math.pow(10, NaN)`). -/
def parseNumericValue (value : String) (scale : Option String) : JValue :=
  let numValue : Dec := (jsParseFloat (value.data.filter (fun c => c ≠ ','))).getD ⟨0, 0⟩
  match scale with
  | none => .num numValue
  | some sc =>
      if sc = "" then .num numValue
      else
        match jsParseInt sc.data with
        | none => .nan
        | some k => .num (numValue.mulPow10 k)

/-! ## `extractFactsFromIxbrl` -/

/-- Captured text of a mandatory group, as a string (mandatory groups
always participate in a successful match; the default is never used). -/
def capS (i : Nat) (caps : Caps) : String := ((getCap i caps).getD []).asString

/-- The fact record pushed for one `ix:nonFraction` match
(lines 288–299 of the source): `unitRef: unitRef || 'USD'`. -/
def mkNonFractionFact (name contextRef : String) (unitRef decimals scale : Option String)
    (value : String) : Fact :=
  { namespc := (parseXbrlName name).1
    concept := (parseXbrlName name).2
    value := parseNumericValue value scale
    valueRaw := value
    contextRef := contextRef
    unitRef := some (match unitRef with
      | some u => if u = "" then "USD" else u
      | none => "USD")
    decimals := decimals
    scale := scale
    fullTag := name
    factType := "nonFraction" }

/-- `parseFloat(value) || value`: the number when it parses to something
truthy, the raw string when the parse is `NaN` or `0`. -/
def fractionValue (v : String) : JValue :=
  match jsParseFloat v.data with
  | some d => if d.m = 0 then .str v else .num d
  | none => .str v

/-- The fact record pushed for one `ix:fraction` match. -/
def mkFractionFact (name contextRef value : String) : Fact :=
  { namespc := (parseXbrlName name).1
    concept := (parseXbrlName name).2
    value := fractionValue value
    valueRaw := value
    contextRef := contextRef
    unitRef := some "pure"
    decimals := none
    scale := none
    fullTag := name
    factType := "fraction" }

/-- The fact record pushed for one `ix:nonNumeric` match. -/
def mkNonNumericFact (name contextRef value : String) : Fact :=
  { namespc := (parseXbrlName name).1
    concept := (parseXbrlName name).2
    value := .str (jsTrim value)
    valueRaw := value
    contextRef := contextRef
    unitRef := none
    decimals := none
    scale := none
    fullTag := name
    factType := "nonNumeric" }

/-- `extractFactsFromIxbrl`: run the three patterns over the whole
document (flags `gi`) and concatenate their facts in pattern order. -/
def extractFactsFromIxbrl (htmlContent : String) : List Fact :=
  let h := htmlContent.data
  let fuel := h.length + 1
  ((scanAll true nonFractionRe fuel h).map fun caps =>
      mkNonFractionFact (capS 1 caps) (capS 2 caps)
        ((getCap 3 caps).map List.asString) ((getCap 4 caps).map List.asString)
        ((getCap 5 caps).map List.asString) (capS 6 caps))
  ++ ((scanAll true fractionRe fuel h).map fun caps =>
      mkFractionFact (capS 1 caps) (capS 2 caps) (capS 3 caps))
  ++ ((scanAll true nonNumericRe fuel h).map fun caps =>
      mkNonNumericFact (capS 1 caps) (capS 2 caps) (capS 3 caps))

/-! ## Context Resolver -/

/-- `extractPeriodFromContext`'s `instantMatch` capture. -/
def instantCap (contextContent : List Char) : Option String :=
  (firstMatch false instantRe contextContent).bind fun caps =>
    (getCap 1 caps).map List.asString

/-- `extractPeriodFromContext`'s `startDateMatch` capture. -/
def startDateCap (contextContent : List Char) : Option String :=
  (firstMatch false startDateRe contextContent).bind fun caps =>
    (getCap 1 caps).map List.asString

/-- `extractPeriodFromContext`'s `endDateMatch` capture. -/
def endDateCap (contextContent : List Char) : Option String :=
  (firstMatch false endDateRe contextContent).bind fun caps =>
    (getCap 1 caps).map List.asString

/-- `extractPeriodFromContext`: instant wins, else a duration needs both
dates, else the period is unknown with no date fields. -/
def extractPeriodFromContext (contextContent : List Char) : Period :=
  match instantCap contextContent with
  | some d => .instant d
  | none =>
      match startDateCap contextContent, endDateCap contextContent with
      | some a, some b => .duration a b
      | _, _ => .unknown

/-- `extractEntityFromContext`: first identifier match or `null`. -/
def extractEntityFromContext (contextContent : List Char) : Entity :=
  { identifier := (firstMatch false identifierRe contextContent).bind fun caps =>
      (getCap 1 caps).map List.asString }

/-- `extractDimensionsFromContext`: every explicit-member match, keyed by
its `dimension` attribute; a repeated axis is overwritten in place. -/
def extractDimensionsFromContext (contextContent : List Char) : List (String × String) :=
  (scanAll false memberRe (contextContent.length + 1) contextContent).foldl
    (fun m caps => updX m (capS 1 caps) (capS 2 caps)) []

/-- The context record built for one context block. -/
def mkCtx (contextId : String) (contextContent : List Char) : Ctx :=
  { id := contextId
    period := extractPeriodFromContext contextContent
    entity := extractEntityFromContext contextContent
    dimensions := extractDimensionsFromContext contextContent }

/-- The sequence of context-block matches in the order
`extractContextsFromIxbrl` processes them: every `ix:context` match of
the document first, then every `xbrli:context` match; each element is
the captured id and block content. -/
def ctxMatchSeq (htmlContent : String) : List (String × List Char) :=
  let h := htmlContent.data
  let fuel := h.length + 1
  ((scanAll false ixContextRe fuel h) ++ (scanAll false xbrliContextRe fuel h)).map
    fun caps => (capS 1 caps, (getCap 2 caps).getD [])

/-- `extractContextsFromIxbrl`: both scans assign
`contexts[contextId] = {…}` into one object; a later assignment to the
same identifier overwrites the earlier record. -/
def extractContextsFromIxbrl (htmlContent : String) : List (String × Ctx) :=
  (ctxMatchSeq htmlContent).foldl (fun m p => updX m p.1 (mkCtx p.1 p.2)) []

/-! ## Fact Matcher (`findDimensionalFacts`) -/

/-- Inclusive numeric range criterion `{min, max}`. -/
structure ValueRange where
  min : Dec
  max : Dec
deriving DecidableEq

/-- Caller-supplied search criteria; `none` models an absent (or
`null`/`undefined`) field. -/
structure Criteria where
  concept : Option String := none
  value : Option JValue := none
  valueRange : Option ValueRange := none
  dimensions : Option (List (String × String)) := none
deriving DecidableEq

/-- Parsed document data consumed by the matcher. -/
structure XbrlData where
  facts : List Fact
  contexts : List (String × Ctx)

/-- Concept check: with a truthy `criteria.concept`, its lowercase form
must appear in the fact's lowercase concept name. -/
def conceptPass (crit : Option String) (f : Fact) : Bool :=
  match crit with
  | some c => if c = "" then true else containsL (lowerL f.concept) (lowerL c)
  | none => true

/-- Exact-value check: with a truthy `criteria.value`, the string forms
must be equal (`fact.value.toString() !== criteria.value.toString()`
rejects). -/
def exactPass (crit : Option JValue) (f : Fact) : Bool :=
  match crit with
  | some v => if jsTruthy v then jsToString f.value == jsToString v else true
  | none => true

/-- Numeric coercion used by the range check:
`typeof fact.value === 'number' ? fact.value : parseFloat(fact.value)`;
`none` is `NaN`. -/
def jsToNumber : JValue → Option Dec
  | .num d => some d
  | .nan => none
  | .str s => jsParseFloat s.data

/-- Range check: reject when the coercion `isNaN` or lies outside
`[min, max]`. -/
def rangePass (crit : Option ValueRange) (f : Fact) : Bool :=
  match crit with
  | some vr =>
      match jsToNumber f.value with
      | some d => Dec.le vr.min d && Dec.le d vr.max
      | none => false
  | none => true

/-- Dimensional check: every axis of `criteria.dimensions` must have a
truthy member in the context whose lowercase form contains the
criterion's lowercase substring. -/
def dimsPass (crit : Option (List (String × String))) (ctx : Ctx) : Bool :=
  match crit with
  | some ds => ds.all fun p =>
      match jsGet ctx.dimensions p.1 with
      | some m => (m ≠ "" : Bool) && containsL (lowerL m) (lowerL p.2)
      | none => false
  | none => true

/-- `period?.startDate || period?.instant` (and the `endDate` variant):
JavaScript `||` falls through on `undefined` and `""`. -/
def jsOrOpt : Option String → Option String → Option String
  | some s, b => if s = "" then b else some s
  | none, b => b

/-- The `startDate` field of a period object, if present. -/
def periodStartDate : Period → Option String
  | .duration a _ => some a
  | _ => none

/-- The `endDate` field of a period object, if present. -/
def periodEndDate : Period → Option String
  | .duration _ b => some b
  | _ => none

/-- The `instant` field of a period object, if present. -/
def periodInstant : Period → Option String
  | .instant d => some d
  | _ => none

/-- The `type` field of a period object. -/
def periodTypeStr : Period → String
  | .instant _ => "instant"
  | .duration _ _ => "duration"
  | .unknown => "unknown"

/-- A matched fact: the annotation spread together with its context's
period and dimensions (`{...fact, context, period, periodType,
periodStart, periodEnd, dimensions}`). -/
structure MatchedFact where
  fact : Fact
  context : Ctx
  period : Period
  periodType : String
  periodStart : Option String
  periodEnd : Option String
  dimensions : List (String × String)
deriving DecidableEq

/-- The enriched record pushed for a surviving fact. -/
def enrich (f : Fact) (ctx : Ctx) : MatchedFact :=
  { fact := f
    context := ctx
    period := ctx.period
    periodType := periodTypeStr ctx.period
    periodStart := jsOrOpt (periodStartDate ctx.period) (periodInstant ctx.period)
    periodEnd := jsOrOpt (periodEndDate ctx.period) (periodInstant ctx.period)
    dimensions := ctx.dimensions }

/-- The per-fact filter of `findDimensionalFacts`: the `continue` chain
of the source loop, returning the fact's context when every check
passes. -/
def factMatches (contexts : List (String × Ctx)) (criteria : Criteria) (f : Fact) :
    Option Ctx :=
  if conceptPass criteria.concept f then
    if exactPass criteria.value f then
      if rangePass criteria.valueRange f then
        match jsGet contexts f.contextRef with
        | none => none
        | some ctx => if dimsPass criteria.dimensions ctx then some ctx else none
      else none
    else none
  else none

/-- `findDimensionalFacts`: push the enriched record for every fact that
passes all criteria checks, in input order. -/
def findDimensionalFacts (xbrlData : XbrlData) (criteria : Criteria) : List MatchedFact :=
  xbrlData.facts.filterMap fun f =>
    (factMatches xbrlData.contexts criteria f).map (enrich f)

/-! ## Shared sample data for witnesses -/

/-- A concrete annotation used by several witnesses; its context
reference resolves to nothing in an empty context mapping. -/
def sampleFact : Fact :=
  { namespc := "us-gaap"
    concept := "Revenue"
    value := .num (Dec.ofInt 638000000)
    valueRaw := "638"
    contextRef := "missing"
    unitRef := some "USD"
    decimals := none
    scale := none
    fullTag := "us-gaap:Revenue"
    factType := "nonFraction" }

/-- A context mapping an axis to the empty member string, as the
resolver produces for `<xbrldi:explicitMember dimension="a:Axis">`
with empty inner text. -/
def axisCtx : Ctx :=
  { id := "c1", period := .unknown, entity := ⟨none⟩, dimensions := [("a:Axis", "")] }

/-- `sampleFact` with a context reference that resolves to `axisCtx`. -/
def axisFact : Fact := { sampleFact with contextRef := "c1" }

/-! ## Claim theorems -/

/-- **C2** (counterexample).  A free-text annotation whose decoded value
is the string `"5"` passes a `[0, 10]` range criterion and is returned
by the matcher, refuting the claim that a non-numeric decoded value
never passes the range check. -/
theorem C2_free_text_in_range_matches :
    (findDimensionalFacts
        ⟨extractFactsFromIxbrl
            ("<ix:nonNumeric name=\"a:Note\" contextRef=\"c1\">5</ix:nonNumeric>"),
          extractContextsFromIxbrl
            ("<ix:context id=\"c1\"><xbrli:instant>2025-01-01</xbrli:instant></ix:context>")⟩
        { valueRange := some ⟨Dec.ofInt 0, Dec.ofInt 10⟩ }).map (fun m => m.fact.value)
      = [JValue.str "5"] := by decide

/-- **C2** (amended).  The range check passes exactly when the
JavaScript numeric coercion of the decoded value — the value itself when
it is a number, `parseFloat` of the string otherwise, `NaN` never —
is defined and lies within `[min, max]` inclusive; in particular a
free-text value whose `parseFloat` lands in the range does pass. -/
theorem C2_range_check_coercion (vr : ValueRange) (f : Fact) :
    rangePass (some vr) f = true ↔
      ∃ d, jsToNumber f.value = some d
        ∧ Dec.le vr.min d = true ∧ Dec.le d vr.max = true := by
  unfold rangePass
  cases h : jsToNumber f.value with
  | none => simp
  | some d => simp [Bool.and_eq_true]

/-- **C4** (counterexample).  With the (schema-conformant) exact-value
criterion `""`, the truthiness guard `criteria.value &&` skips the
check entirely: a fact whose decoded string form `"1"` differs from the
criterion's string form is still returned, refuting the claim that
every annotation whose decoded string form differs is excluded. -/
theorem C4_falsy_exact_value_skips_check :
    (findDimensionalFacts
        ⟨extractFactsFromIxbrl
            ("<ix:nonFraction name=\"us-gaap:Revenue\" contextRef=\"c1\">1</ix:nonFraction>"),
          extractContextsFromIxbrl
            ("<ix:context id=\"c1\"><xbrli:instant>2025-01-01</xbrli:instant></ix:context>")⟩
        { value := some (JValue.str "") }).map (fun m => m.fact.value)
      = [JValue.num (Dec.ofInt 1)]
    ∧ jsToString (JValue.num (Dec.ofInt 1)) ≠ jsToString (JValue.str "") := by
  refine ⟨by decide, by decide⟩

/-- **C4** (amended).  For a truthy exact-value criterion (non-empty
string, non-zero number), an annotation survives the exact-value check
iff the string form of its decoded value equals the string form of the
criterion; a falsy criterion (empty string, `0`, `NaN`) disables the
check. -/
theorem C4_exact_check_when_truthy (v : JValue) (f : Fact) (h : jsTruthy v = true) :
    exactPass (some v) f = true ↔ jsToString f.value = jsToString v := by
  have hdef : exactPass (some v) f
      = if jsTruthy v then jsToString f.value == jsToString v else true := rfl
  rw [hdef, h]
  simp

/-- Witness for `C4_exact_check_when_truthy` at a concrete criterion and
fact. -/
theorem C4_exact_check_witness :
    jsTruthy (JValue.str ("638000000")) = true
    ∧ (exactPass (some (JValue.str ("638000000"))) sampleFact = true
        ↔ jsToString sampleFact.value = jsToString (JValue.str ("638000000"))) :=
  ⟨by decide, C4_exact_check_when_truthy (JValue.str ("638000000")) sampleFact (by decide)⟩

/-- **C5** (counterexample).  A context whose mapping contains the axis
`"a:Axis"` with member `""`, matched against the criterion substring
`""` (which the member does contain), is nevertheless rejected: the
truthiness guard `!context.dimensions[dimName]` treats the empty member
as absent, so the fact drops out of the results — refuting the claimed
"contains the axis and the member contains the substring" biconditional. -/
theorem C5_empty_member_counterexample :
    jsGet axisCtx.dimensions ("a:Axis") = some ""
    ∧ containsL (lowerL "") (lowerL "") = true
    ∧ findDimensionalFacts ⟨[axisFact], [(("c1" : String), axisCtx)]⟩
        { dimensions := some [(("a:Axis" : String), ("" : String))] } = [] := by
  refine ⟨by decide, by decide, by decide⟩

/-- **C5** (amended).  The dimensional filter is conjunctive: the check
passes iff every axis named in the criteria is mapped by the context to
a *non-empty* member whose lowercase form contains the criterion's
lowercase substring; an axis that is absent — or mapped to the empty
string — fails the whole fact. -/
theorem C5_dimensional_filter_conjunctive (ds : List (String × String)) (ctx : Ctx) :
    dimsPass (some ds) ctx = true ↔
      ∀ p ∈ ds, ∃ m, jsGet ctx.dimensions p.1 = some m ∧ m ≠ ""
        ∧ containsL (lowerL m) (lowerL p.2) = true := by
  unfold dimsPass
  rw [List.all_eq_true]
  constructor
  · intro h p hp
    have hm := h p hp
    cases hg : jsGet ctx.dimensions p.1 with
    | none => rw [hg] at hm; simp at hm
    | some m =>
        rw [hg] at hm
        simp only [Bool.and_eq_true, decide_eq_true_eq] at hm
        exact ⟨m, rfl, hm.1, hm.2⟩
  · intro h p hp
    obtain ⟨m, hg, hne, hc⟩ := h p hp
    rw [hg]
    simp [hne, hc]

/-- **C1** (status: code bug).  The claim says the decoded value of an
extracted annotation is the stripped raw value times `10^scale` when a
scale attribute is present — e.g. raw `"638"`, scale `"6"` → `638000000`.
The extraction regex cannot deliver this: its greedy `[^>]*` always
consumes the optional `unitRef`/`decimals`/`scale` attribute text before
the optional capture groups are tried, so the scale capture is always
undefined and the pushed fact keeps the unscaled value.  At the failing
input below the extracted fact has value `638` and no scale, although
`parseNumericValue` itself — handed the scale the markup carries — would
produce the claimed `638000000`. -/
theorem C1_scale_never_applied :
    (extractFactsFromIxbrl
        ("<ix:nonFraction name=\"us-gaap:Revenue\" contextRef=\"c1\" scale=\"6\">638</ix:nonFraction>")).map
        (fun f => (f.value, f.scale))
      = [(JValue.num (Dec.ofInt 638), none)]
    ∧ parseNumericValue ("638") (some ("6")) = JValue.num (Dec.ofInt 638000000)
    ∧ JValue.num (Dec.ofInt 638) ≠ JValue.num (Dec.ofInt 638000000) := by
  refine ⟨by decide, by decide, by decide⟩

/-- **C3** (counterexample).  A ratio-fraction (`ix:fraction`) annotation
whose inner text does not parse keeps the raw text as its decoded value
(`parseFloat(value) || value`), which is not the number zero — refuting
the claim that every numeric-kind annotation with unparsable text
decodes to zero. -/
theorem C3_fraction_keeps_raw_text :
    (extractFactsFromIxbrl
        ("<ix:fraction name=\"a:b\" contextRef=\"c2\">N/A</ix:fraction>")).map
        (fun f => f.value)
      = [JValue.str "N/A"]
    ∧ JValue.str "N/A" ≠ JValue.num (Dec.ofInt 0) := by
  refine ⟨by decide, by decide⟩

/-- **C3** (amended).  Unparsable inner text decodes to zero for
numeric-fraction annotations when no scale is applied (which, per C1, is
every extracted `ix:nonFraction` fact), while a ratio-fraction
annotation with unparsable text keeps the raw text string. -/
theorem C3_unparsable_defaults (v : String)
    (h1 : jsParseFloat (v.data.filter (fun c => c ≠ ',')) = none)
    (h2 : jsParseFloat v.data = none) :
    parseNumericValue v none = JValue.num ⟨0, 0⟩ ∧ fractionValue v = JValue.str v := by
  constructor
  · unfold parseNumericValue
    rw [h1]
    rfl
  · unfold fractionValue
    rw [h2]


/-- Witness for `C3_unparsable_defaults` at the inner text `"N/A"`. -/
theorem C3_unparsable_defaults_witness :
    parseNumericValue ("N/A") none = JValue.num ⟨0, 0⟩
    ∧ fractionValue ("N/A") = JValue.str ("N/A") :=
  C3_unparsable_defaults ("N/A") (by decide) (by decide)

/-- **C9** (confirmed).  The fact record built for a numeric-fraction
match maps a missing or empty unit capture to the literal `"USD"`
(`unitRef: unitRef || 'USD'`); markup carrying no `unitRef` attribute
yields no capture, as the concrete extraction in the second conjunct
shows. -/
theorem C9_missing_unit_defaults_to_USD :
    (∀ (name contextRef : String) (u d sc : Option String) (v : String),
        u = none ∨ u = some "" →
        (mkNonFractionFact name contextRef u d sc v).unitRef = some ("USD"))
    ∧ (extractFactsFromIxbrl
        ("<ix:nonFraction name=\"a:b\" contextRef=\"c1\">5</ix:nonFraction>")).map
        (fun f => f.unitRef) = [some ("USD")] := by
  constructor
  · rintro name contextRef u d sc v (rfl | rfl) <;> rfl
  · decide

/-- **C6** (confirmed).  An annotation whose context reference resolves
to no record in the supplied mapping contributes nothing to the result
list — deleting it from the fact list leaves `findDimensionalFacts`
unchanged, the remaining annotations being matched as before; the
matcher is total, so no error is raised. -/
theorem C6_missing_context_dropped (xs ys : List Fact) (f : Fact)
    (ctxs : List (String × Ctx)) (crit : Criteria)
    (h : jsGet ctxs f.contextRef = none) :
    findDimensionalFacts ⟨xs ++ f :: ys, ctxs⟩ crit
      = findDimensionalFacts ⟨xs ++ ys, ctxs⟩ crit := by
  have hf : factMatches ctxs crit f = none := by
    simp [factMatches, h]
  show List.filterMap _ (xs ++ f :: ys) = List.filterMap _ (xs ++ ys)
  rw [List.filterMap_append, List.filterMap_append]
  congr 1
  rw [List.filterMap_cons]
  simp [hf]

/-- Witness for `C6_missing_context_dropped` at a concrete annotation
with an unresolvable context reference. -/
theorem C6_missing_context_witness :
    findDimensionalFacts ⟨[] ++ sampleFact :: [], []⟩ { }
      = findDimensionalFacts ⟨[] ++ [], []⟩ { } :=
  C6_missing_context_dropped [] [] sampleFact [] { } (by decide)

/-- **C7** (confirmed).  Period resolution: an instant-date capture
gives kind `instant` with that date; otherwise both a start-date and an
end-date capture give kind `duration` with both dates; otherwise the
period is `unknown`, which carries no date fields at all — in
particular a block with a start date but no end date resolves to
`unknown`. -/
theorem C7_period_resolution (c : List Char) :
    (∀ d, instantCap c = some d → extractPeriodFromContext c = Period.instant d)
    ∧ (instantCap c = none → ∀ a b, startDateCap c = some a → endDateCap c = some b →
        extractPeriodFromContext c = Period.duration a b)
    ∧ (instantCap c = none → (startDateCap c = none ∨ endDateCap c = none) →
        extractPeriodFromContext c = Period.unknown) := by
  refine ⟨?_, ?_, ?_⟩
  · intro d hd
    unfold extractPeriodFromContext
    rw [hd]
  · intro hi a b ha hb
    unfold extractPeriodFromContext
    rw [hi, ha, hb]
  · intro hi hab
    unfold extractPeriodFromContext
    rw [hi]
    rcases hab with ha | hb
    · rw [ha]
    · rw [hb]
      cases hs : startDateCap c <;> rfl

/-- Witness for `C7_period_resolution`: a block with both date markers
resolves to a duration, applied with its hypotheses discharged by
computation. -/
theorem C7_period_witness :
    extractPeriodFromContext
        (("<xbrli:startDate>2025-01-01</xbrli:startDate><xbrli:endDate>2025-03-30</xbrli:endDate>").data)
      = Period.duration ("2025-01-01") ("2025-03-30") :=
  (C7_period_resolution _).2.1 (by decide) ("2025-01-01") ("2025-03-30")
    (by decide) (by decide)

/-- Witness for `C9_missing_unit_defaults_to_USD` with an absent unit
capture. -/
theorem C9_missing_unit_witness :
    (mkNonFractionFact ("us-gaap:Revenue") ("c1") none none none ("638")).unitRef
      = some ("USD") :=
  C9_missing_unit_defaults_to_USD.1 ("us-gaap:Revenue") ("c1") none none none ("638")
    (Or.inl rfl)

/-- `jsSplit` never returns the empty list. -/
theorem jsSplit_ne_nil (sep : Char) (l : List Char) : jsSplit sep l ≠ [] := by
  induction l with
  | nil => simp [jsSplit]
  | cons c t ih =>
    unfold jsSplit
    by_cases h : c = sep
    · simp [h]
    · simp only [h, if_false]
      cases hr : jsSplit sep t with
      | nil => exact absurd hr ih
      | cons hh tt => simp

/-- The number of split parts is the separator count plus one. -/
theorem jsSplit_length (sep : Char) (l : List Char) :
    (jsSplit sep l).length = l.count sep + 1 := by
  induction l with
  | nil => rfl
  | cons c t ih =>
    unfold jsSplit
    by_cases h : c = sep
    · simp [h, ih, List.count_cons]
    · cases hr : jsSplit sep t with
      | nil => exact absurd hr (jsSplit_ne_nil sep t)
      | cons hh tt =>
        rw [hr] at ih
        simp only [h, if_false, hr]
        simp [List.count_cons, h, ← ih]

/-- **C10** (confirmed).  A concept name with two or more `:` separators
splits into more than two parts, so the name parser falls back to the
sentinel namespace `"default"` with the whole unsplit input as local
name. -/
theorem C10_multi_colon_default_namespace (name : String)
    (h : 2 ≤ name.data.count ':') :
    parseXbrlName name = ("default", name) := by
  have hl := jsSplit_length ':' name.data
  unfold parseXbrlName
  rcases hs : jsSplit ':' name.data with _ | ⟨a, _ | ⟨b, _ | ⟨c, t⟩⟩⟩
  · rfl
  · rfl
  · rw [hs] at hl
    simp at hl
    omega
  · rfl

/-- Witness for `C10_multi_colon_default_namespace` at `"a:b:c"`. -/
theorem C10_multi_colon_witness :
    2 ≤ ("a:b:c").data.count ':' ∧ parseXbrlName ("a:b:c") = ("default", "a:b:c") :=
  ⟨by decide, C10_multi_colon_default_namespace ("a:b:c") (by decide)⟩

/-! ## Lemmas on the object-assignment model, for C8 -/

/-- The pair assigned last for key `k` in an assignment sequence, if
any. -/
def lastAssign (l : List (String × α)) (k : String) : Option (String × α) :=
  l.foldl (fun acc p => if p.1 = k then some p else acc) none

/-- Reading after an assignment: the written value at the written key,
the old mapping elsewhere. -/
theorem jsGet_updX (m : List (String × α)) (a k : String) (v : α) :
    jsGet (updX m a v) k = if a = k then some v else jsGet m k := by
  induction m with
  | nil => by_cases hak : a = k <;> simp [updX, jsGet, hak]
  | cons p t ih =>
      unfold updX
      by_cases hpa : p.1 = a
      · rw [if_pos hpa]
        by_cases hak : a = k
        · simp [jsGet, hak]
        · have hpk : ¬ p.1 = k := fun hh => hak (hpa ▸ hh)
          simp [jsGet, hak, hpk]
      · rw [if_neg hpa]
        by_cases hpk : p.1 = k
        · have hak : ¬ a = k := fun hh => hpa (by rw [hpk, hh])
          simp [jsGet, hpk, hak]
        · simp [jsGet, hpk, ih]

/-- Reading the mapping built by a fold of assignments: the record of
the last assignment to the key wins, else the initial mapping. -/
theorem jsGet_foldl_updX (g : String × γ → β) (k : String) :
    ∀ (l : List (String × γ)) (m : List (String × β)) (o : Option (String × γ)),
      jsGet m k = o.map (fun p => g p) →
      jsGet (l.foldl (fun m p => updX m p.1 (g p)) m) k
        = (l.foldl (fun acc p => if p.1 = k then some p else acc) o).map (fun p => g p) := by
  intro l
  induction l with
  | nil => intro m o h; simpa using h
  | cons p t ih =>
      intro m o h
      simp only [List.foldl_cons]
      apply ih
      rw [jsGet_updX]
      by_cases hp : p.1 = k
      · rw [if_pos hp, if_pos hp]
        rfl
      · rw [if_neg hp, if_neg hp]
        exact h

/-- Keys present after an assignment. -/
theorem mem_keys_updX (m : List (String × α)) (a k : String) (v : α) :
    k ∈ (updX m a v).map Prod.fst ↔ k = a ∨ k ∈ m.map Prod.fst := by
  induction m with
  | nil => simp [updX]
  | cons p t ih =>
      unfold updX
      by_cases hpa : p.1 = a
      · rw [if_pos hpa]
        simp [hpa]
      · rw [if_neg hpa]
        simp only [List.map_cons, List.mem_cons, ih]
        tauto

/-- Assignment preserves distinctness of keys. -/
theorem keys_nodup_updX (m : List (String × α)) (a : String) (v : α)
    (h : (m.map Prod.fst).Nodup) : ((updX m a v).map Prod.fst).Nodup := by
  induction m with
  | nil => simp [updX]
  | cons p t ih =>
      rw [List.map_cons, List.nodup_cons] at h
      unfold updX
      by_cases hpa : p.1 = a
      · rw [if_pos hpa]
        simp only [List.map_cons, List.nodup_cons]
        exact ⟨by rw [← hpa]; exact h.1, h.2⟩
      · rw [if_neg hpa]
        simp only [List.map_cons, List.nodup_cons]
        refine ⟨fun hmem => ?_, ih h.2⟩
        rw [mem_keys_updX] at hmem
        rcases hmem with h1 | h2
        · exact hpa h1
        · exact h.1 h2

/-- A fold of assignments preserves distinctness of keys. -/
theorem keys_nodup_foldl_updX (g : String × γ → β) :
    ∀ (l : List (String × γ)) (m : List (String × β)),
      (m.map Prod.fst).Nodup →
      ((l.foldl (fun m p => updX m p.1 (g p)) m).map Prod.fst).Nodup := by
  intro l
  induction l with
  | nil => intro m h; exact h
  | cons p t ih => intro m h; exact ih _ (keys_nodup_updX _ _ _ h)

/-- With distinct keys, at most one entry carries any given key. -/
theorem filter_key_length_le_one (m : List (String × β)) (k : String)
    (h : (m.map Prod.fst).Nodup) :
    (m.filter (fun p => p.1 = k)).length ≤ 1 := by
  induction m with
  | nil => simp
  | cons p t ih =>
      rw [List.map_cons, List.nodup_cons] at h
      by_cases hpk : p.1 = k
      · rw [List.filter_cons_of_pos (by simpa using hpk)]
        have ht : t.filter (fun p => (p.1 = k : Bool)) = [] := by
          rw [List.filter_eq_nil_iff]
          intro q hq hqk
          rw [decide_eq_true_eq] at hqk
          exact h.1 (by
            rw [← hpk] at hqk
            exact hqk ▸ List.mem_map_of_mem Prod.fst hq)
        simp [ht]
      · rw [List.filter_cons_of_neg (by simpa using hpk)]
        exact ih h.2

/-- **C8** (confirmed).  The context mapping is populated by the match
sequence `ctxMatchSeq` — every inline-vocabulary (`ix:context`) match,
then every legacy (`xbrli:context`) match — with one assignment per
match: for any identifier, the returned record is exactly the record of
the **last** match carrying that identifier (later matches overwrite
earlier ones), the mapping's keys are distinct, so a duplicated
identifier — within one vocabulary or one block from each — yields
exactly one record, and the collision raises no error (the resolver is
total). -/
theorem C8_last_context_match_wins (html id : String) :
    jsGet (extractContextsFromIxbrl html) id
      = (lastAssign (ctxMatchSeq html) id).map (fun p => mkCtx p.1 p.2)
    ∧ ((extractContextsFromIxbrl html).map Prod.fst).Nodup
    ∧ ((extractContextsFromIxbrl html).filter (fun p => p.1 = id)).length ≤ 1 := by
  have h1 : jsGet (extractContextsFromIxbrl html) id
      = (lastAssign (ctxMatchSeq html) id).map (fun p => mkCtx p.1 p.2) :=
    jsGet_foldl_updX (fun p => mkCtx p.1 p.2) id (ctxMatchSeq html) [] none rfl
  have h2 : ((extractContextsFromIxbrl html).map Prod.fst).Nodup :=
    keys_nodup_foldl_updX (fun p => mkCtx p.1 p.2) (ctxMatchSeq html) [] (by simp)
  exact ⟨h1, h2, filter_key_length_le_one _ id h2⟩

end SecMcp
